import Mathlib

/-!
# Verification of the e-commerce time-series analytics engine

Shallow embedding of the three analyzers of `ecommerce_calculator/analysis`
(`seasonality.py`, `lifecycle.py`, `demand.py`) and of the tool wrapper
`tools/implementations.py`, together with theorems settling the spec claims.

Modelling conventions:
* Python floats and ints appearing in arithmetic are modelled as `ℚ`
  (exact rational arithmetic).
* A Python function that can raise is modelled as returning `Except String α`;
  the string names the exception.  A function whose failures are swallowed into
  `None` by a surrounding `try/except` returns `Option α`.
* Python dicts built by insertion are modelled as insertion-ordered
  association lists; dict iteration follows insertion order, as in CPython.
* `datetime.fromisoformat` is modelled on the date-only form `YYYY-MM-DD`,
  which is the only form the data model uses.
* The database layer is out of scope: each entry point takes the loaded
  product (`Option Product`) as an argument instead of a product id.
-/

namespace ECommerce

/-- A parsed calendar date (the result of `datetime.fromisoformat` on a
date-only string; the time component is always midnight and is dropped). -/
structure PyDate where
  year : ℕ
  month : ℕ
  day : ℕ
deriving DecidableEq, Repr

/-- Datetime comparison (all times are midnight UTC, so this is
lexicographic comparison of the date triple). -/
def PyDate.leB (a b : PyDate) : Bool :=
  if a.year ≠ b.year then decide (a.year < b.year)
  else if a.month ≠ b.month then decide (a.month < b.month)
  else decide (a.day ≤ b.day)

/-- Gregorian leap-year test, as in the `datetime` module. -/
def isLeap (y : ℕ) : Bool :=
  (y % 4 == 0 && y % 100 != 0) || y % 400 == 0

/-- Number of days in a month, as validated by `datetime.fromisoformat`. -/
def daysInMonth (y m : ℕ) : ℕ :=
  if m = 2 then (if isLeap y then 29 else 28)
  else if m = 4 ∨ m = 6 ∨ m = 9 ∨ m = 11 then 30
  else 31

/-- Numeric value of a decimal digit character. -/
def digitVal (c : Char) : ℕ := c.toNat - 48

/-- Model of `datetime.fromisoformat` restricted to the `YYYY-MM-DD` form:
`none` models the `ValueError` raised on a string that does not parse. -/
def fromisoformat (s : String) : Option PyDate :=
  match s.data with
  | [y1, y2, y3, y4, c1, m1, m2, c2, d1, d2] =>
    if c1 = '-' ∧ c2 = '-' ∧
       y1.isDigit ∧ y2.isDigit ∧ y3.isDigit ∧ y4.isDigit ∧
       m1.isDigit ∧ m2.isDigit ∧ d1.isDigit ∧ d2.isDigit then
      let y := ((digitVal y1 * 10 + digitVal y2) * 10 + digitVal y3) * 10 + digitVal y4
      let m := digitVal m1 * 10 + digitVal m2
      let d := digitVal d1 * 10 + digitVal d2
      if 1 ≤ y ∧ 1 ≤ m ∧ m ≤ 12 ∧ 1 ≤ d ∧ d ≤ daysInMonth y m then
        some ⟨y, m, d⟩
      else none
    else none
  | _ => none

/-- One sales-history entry.  `returns := none` models a record in which the
optional `returns` key is absent. -/
structure SalesRecord where
  date : String
  sales : ℚ
  price : ℚ
  returns : Option ℚ
deriving DecidableEq, Repr

/-- The loaded product record, reduced to the only field the analyzers read:
`history := none` models a product dict without the `history` key. -/
structure Product where
  history : Option (List SalesRecord)
deriving DecidableEq, Repr

/-! ## SeasonalityAnalyzer (`analysis/seasonality.py`) -/

/-- One step of `monthly_patterns[month].append(entry["sales"])`: append a
sales value to the bucket of `m` in an insertion-ordered dict, creating the
bucket at the end if `m` is a fresh key. -/
def appendToMonth (m : ℕ) (s : ℚ) : List (ℕ × List ℚ) → List (ℕ × List ℚ)
  | [] => [(m, [s])]
  | (k, v) :: rest =>
    if k = m then (k, v ++ [s]) :: rest else (k, v) :: appendToMonth m s rest

/-- The grouping loop of `calculate_seasonality_metrics`: group sales by the
calendar month of each parsed entry date.  A date that fails to parse raises
`ValueError`, aborting the whole computation. -/
def buildMonthlyPatterns : List SalesRecord → List (ℕ × List ℚ) →
    Except String (List (ℕ × List ℚ))
  | [], acc => .ok acc
  | r :: rest, acc =>
    match fromisoformat r.date with
    | none => .error ("Invalid isoformat string: " ++ r.date)
    | some d => buildMonthlyPatterns rest (appendToMonth d.month r.sales acc)

/-- The value of the `seasonality_patterns` dict in the non-empty case. -/
structure SeasonalityPatterns where
  monthly_indices : List (ℕ × ℚ)
  peak_months : List ℕ
  low_months : List ℕ
  seasonality_strength : ℚ
deriving DecidableEq, Repr

/-- The `metrics` dict of the seasonality result. -/
structure SeasonalityMetrics where
  overall_average_sales : ℚ
  monthly_averages : List (ℕ × ℚ)
deriving DecidableEq, Repr

/-- Return value of `calculate_seasonality_metrics`: `emptyPattern` models the
dict `{"seasonality_patterns": {}}` returned for an empty history (an empty
inner dict and no `metrics` key); `full` models the fully populated dict. -/
inductive SeasonalityData where
  | emptyPattern
  | full (seasonality_patterns : SeasonalityPatterns) (metrics : SeasonalityMetrics)
deriving DecidableEq, Repr

/-- `calculate_seasonality_strength`: scaled variance of the indices from 1.0. -/
def calculate_seasonality_strength (indices : List (ℕ × ℚ)) : ℚ :=
  if indices.isEmpty then 0
  else
    let variances := indices.map fun p => (p.2 - 1) ^ 2
    let avg_variance := variances.sum / (variances.length : ℚ)
    min 1 (avg_variance * 2)

/-- `calculate_seasonality_metrics`: group sales by calendar month, compute
per-month averages, seasonal indices, peak and low months and the strength. -/
def calculate_seasonality_metrics (history : List SalesRecord) :
    Except String SeasonalityData :=
  if history.isEmpty then .ok .emptyPattern
  else
    match buildMonthlyPatterns history [] with
    | .error e => .error e
    | .ok monthly_patterns =>
      let monthly_averages := monthly_patterns.map fun p => (p.1, p.2.sum / (p.2.length : ℚ))
      let all_sales := monthly_patterns.flatMap Prod.snd
      let overall_average :=
        if ¬ all_sales.isEmpty then all_sales.sum / (all_sales.length : ℚ) else 0
      let seasonality_indices := monthly_averages.map fun p =>
        (p.1, if 0 < overall_average then p.2 / overall_average else 0)
      let peak_months := (seasonality_indices.filter fun p => (11 : ℚ)/10 < p.2).map Prod.fst
      let low_months := (seasonality_indices.filter fun p => p.2 < (9 : ℚ)/10).map Prod.fst
      .ok (.full
        ⟨seasonality_indices, peak_months, low_months,
          calculate_seasonality_strength seasonality_indices⟩
        ⟨overall_average, monthly_averages⟩)

/-- English month names (`month_names[m]` in `interpret_seasonality`; every
month number reaching it comes from a parsed date, hence lies in 1..12). -/
def month_name (m : ℕ) : String :=
  match m with
  | 1 => "January" | 2 => "February" | 3 => "March" | 4 => "April"
  | 5 => "May" | 6 => "June" | 7 => "July" | 8 => "August"
  | 9 => "September" | 10 => "October" | 11 => "November" | 12 => "December"
  | _ => ""

/-- The `interpretation` dict produced by `interpret_seasonality`. -/
structure SeasonalityInterpretation where
  seasonality_type : String
  peak_seasons : List String
  low_seasons : List String
  confidence_score : ℚ
deriving DecidableEq, Repr

/-- `interpret_seasonality`: reads `patterns["seasonality_strength"]` without a
default, so on the empty-pattern dict (empty history) it raises `KeyError`. -/
def interpret_seasonality (sd : SeasonalityData) :
    Except String SeasonalityInterpretation :=
  match sd with
  | .emptyPattern => .error "KeyError: seasonality_strength"
  | .full p _ =>
    let strength := p.seasonality_strength
    .ok
      { seasonality_type :=
          if (1 : ℚ)/2 < strength then "strong"
          else if (1 : ℚ)/5 < strength then "moderate"
          else "weak"
        peak_seasons := p.peak_months.map month_name
        low_seasons := p.low_months.map month_name
        confidence_score := min 1 (strength * (3/2 : ℚ)) }

/-- The dict returned by `get_product_seasonality` in the success case. -/
structure SeasonalityResult where
  data : SeasonalityData
  interpretation : SeasonalityInterpretation
deriving DecidableEq, Repr

/-- `get_product_seasonality`: `ok none` models the `None` returned when the
product or its `history` key is absent; `error` models an uncaught exception. -/
def get_product_seasonality (product : Option Product) :
    Except String (Option SeasonalityResult) :=
  match product with
  | none => .ok none
  | some p =>
    match p.history with
    | none => .ok none
    | some h =>
      match calculate_seasonality_metrics h with
      | .error e => .error e
      | .ok sd =>
        match interpret_seasonality sd with
        | .error e => .error e
        | .ok interp => .ok (some ⟨sd, interp⟩)

/-! ## LifecycleAnalyzer (`analysis/lifecycle.py`) -/

/-- The loop `for i in range(0, len(history), 90)`: sum the `sales` of each
consecutive window of 90 records (the last window may be shorter). -/
def quarterSums : List SalesRecord → List ℚ
  | [] => []
  | r :: rest =>
    (((r :: rest).take 90).map (·.sales)).sum :: quarterSums (rest.drop 89)
termination_by l => l.length
decreasing_by
  simp only [List.length_drop, List.length_cons]
  omega

/-- The growth-rate loop: for consecutive quarters, append
`(Q[i] - Q[i-1]) / Q[i-1]` when `Q[i-1] > 0` and skip the step otherwise. -/
def growthRates : List ℚ → List ℚ
  | [] => []
  | [_] => []
  | a :: b :: rest =>
    (if 0 < a then [(b - a) / a] else []) ++ growthRates (b :: rest)

/-- `calculate_volatility`: population standard deviation of the rates, capped
at 1.0.  The float operation `variance ** 0.5` is modelled by `Rat.sqrt`; no
claim depends on the value of this field. -/
def calculate_volatility (rates : List ℚ) : ℚ :=
  if rates.isEmpty then 0
  else
    let mean := rates.sum / (rates.length : ℚ)
    let variance := (rates.map fun r => (r - mean) ^ 2).sum / (rates.length : ℚ)
    min 1 (Rat.sqrt variance)

/-- The list comprehension
`[abs(prices[i] - prices[i-1]) / prices[i-1] for i in range(1, len(prices))]`.
There is no guard on the divisor: a zero previous price raises
`ZeroDivisionError` at the first offending step. -/
def priceSteps : List ℚ → Except String (List ℚ)
  | [] => .ok []
  | [_] => .ok []
  | a :: b :: rest =>
    if a = 0 then .error "float division by zero"
    else
      match priceSteps (b :: rest) with
      | .error e => .error e
      | .ok l => .ok ((|b - a| / a) :: l)

/-- `sum(day["returns"] for day in history)`: the `returns` key is read
without a default, so a record lacking it raises `KeyError`. -/
def sumReturns : List SalesRecord → Except String ℚ
  | [] => .ok 0
  | r :: rest =>
    match r.returns with
    | none => .error "KeyError: returns"
    | some v =>
      match sumReturns rest with
      | .error e => .error e
      | .ok s => .ok (v + s)

/-- `calculate_competitive_pressure`: weighted blend of price volatility and
return rate, capped at 1.0. -/
def calculate_competitive_pressure (history : List SalesRecord) :
    Except String ℚ :=
  if history.isEmpty then .ok 0
  else
    let prices := history.map (·.price)
    match priceSteps prices with
    | .error e => .error e
    | .ok price_changes =>
      let price_volatility :=
        if ¬ price_changes.isEmpty then price_changes.sum / (price_changes.length : ℚ) else 0
      let total_sales := (history.map (·.sales)).sum
      match sumReturns history with
      | .error e => .error e
      | .ok total_returns =>
        let return_rate := if 0 < total_sales then total_returns / total_sales else 0
        .ok (min 1 ((7 : ℚ)/10 * price_volatility + (3 : ℚ)/10 * return_rate))

/-- The populated `metrics` dict of the lifecycle result. -/
structure LifecycleMetricsVals where
  growth_rate : ℚ
  growth_volatility : ℚ
  market_saturation : ℚ
  competitive_pressure : ℚ
deriving DecidableEq, Repr

/-- Return value of `calculate_lifecycle_metrics`.  For an empty history the
source returns `{"metrics": {}}`: `metrics := none` models the empty metrics
dict and `stage_start_date := none` the absent `stage_start_date` key. -/
structure LifecycleData where
  metrics : Option LifecycleMetricsVals
  stage_start_date : Option String
deriving DecidableEq, Repr

/-- `max(quarters)` on a non-empty list (the `[]` case is unreachable because
the call site guards with `if quarters`). -/
def listMax : List ℚ → ℚ
  | [] => 0
  | a :: rest => rest.foldl max a

/-- `calculate_lifecycle_metrics`: quarter sums, growth rates, volatility,
saturation and competitive pressure over a (sorted) non-empty history; the
empty history short-circuits to the empty metrics dict. -/
def calculate_lifecycle_metrics (history : List SalesRecord) :
    Except String LifecycleData :=
  match history with
  | [] => .ok ⟨none, none⟩
  | first :: _ =>
    let quarters := quarterSums history
    let growth_rates := growthRates quarters
    let avg_growth_rate :=
      if ¬ growth_rates.isEmpty then growth_rates.sum / (growth_rates.length : ℚ) else 0
    let growth_volatility := calculate_volatility growth_rates
    let recent_quarter := (quarters.getLast?).getD 0
    let peak_quarter := if ¬ quarters.isEmpty then listMax quarters else 0
    let market_saturation :=
      if 0 < peak_quarter then recent_quarter / peak_quarter else 0
    match calculate_competitive_pressure history with
    | .error e => .error e
    | .ok cp =>
      .ok ⟨some ⟨avg_growth_rate, growth_volatility, market_saturation, cp⟩,
           some first.date⟩

/-- `compute_lifecycle_stage`: classification from `metrics.get("growth_rate", 0)`
and `metrics.get("market_share", 0)`.  Neither branch of
`calculate_lifecycle_metrics` ever stores a `market_share` entry in the metrics
dict, so that getter always yields its default 0. -/
def compute_lifecycle_stage (data : LifecycleData) : String :=
  let growth_rate : ℚ :=
    match data.metrics with
    | none => 0
    | some m => m.growth_rate
  let market_share : ℚ := 0
  if growth_rate < 0 ∧ market_share < (1 : ℚ)/10 then "decline"
  else if growth_rate < (1 : ℚ)/20 ∧ (1 : ℚ)/10 ≤ market_share then "maturity"
  else if (1 : ℚ)/20 ≤ growth_rate ∧ (1 : ℚ)/20 ≤ market_share then "growth"
  else "introduction"

/-- Days before the start of year `y` in the proleptic Gregorian calendar. -/
def daysBeforeYear (y : ℕ) : ℕ :=
  let n := y - 1
  n * 365 + n / 4 - n / 100 + n / 400

/-- Days before the start of month `m` within year `y`. -/
def daysBeforeMonth (y m : ℕ) : ℕ :=
  ((List.range (m - 1)).map fun i => daysInMonth y (i + 1)).sum

/-- Proleptic Gregorian ordinal of a date, as in `datetime.toordinal`. -/
def PyDate.toOrdinal (d : PyDate) : ℕ :=
  daysBeforeYear d.year + daysBeforeMonth d.year d.month + d.day

/-- `compute_days_in_stage`: whole days between the parsed `stage_start_date`
and the evaluation instant `now`, clamped to be non-negative; 0 when the
`stage_start_date` key is absent; `ValueError` when the string fails to parse. -/
def compute_days_in_stage (now : PyDate) (data : LifecycleData) :
    Except String ℤ :=
  match data.stage_start_date with
  | none => .ok 0
  | some s =>
    match fromisoformat s with
    | none => .error ("Invalid isoformat string: " ++ s)
    | some start => .ok (max 0 ((now.toOrdinal : ℤ) - (start.toOrdinal : ℤ)))

/-- `compute_stage_risk`: clamped weighted risk score over the metric getters
(each defaulting to 0 on the empty metrics dict). -/
def compute_stage_risk (data : LifecycleData) : ℚ :=
  let growth_volatility : ℚ :=
    match data.metrics with | none => 0 | some m => m.growth_volatility
  let market_saturation : ℚ :=
    match data.metrics with | none => 0 | some m => m.market_saturation
  let competitive_pressure : ℚ :=
    match data.metrics with | none => 0 | some m => m.competitive_pressure
  let risk_score :=
    (4 : ℚ)/10 * growth_volatility + (3 : ℚ)/10 * market_saturation +
      (3 : ℚ)/10 * competitive_pressure
  min 1 (max 0 risk_score)

/-- Insert a record into a list sorted by date string, before any element with
a date not smaller than its own (giving a stable sort when folded from the
right). -/
def insertByDate (r : SalesRecord) : List SalesRecord → List SalesRecord
  | [] => [r]
  | x :: rest =>
    if x.date < r.date then x :: insertByDate r rest else r :: x :: rest

/-- `sorted(history, key=lambda x: x["date"])`: stable sort by the raw date
string (lexicographic, which on `YYYY-MM-DD` strings is chronological). -/
def sortByDate (l : List SalesRecord) : List SalesRecord :=
  l.foldr insertByDate []

/-- The `computed` dict of the lifecycle result. -/
structure LifecycleComputed where
  current_stage : String
  days_in_stage : ℤ
  stage_transition_risk : ℚ
deriving DecidableEq, Repr

/-- The dict returned by `get_product_lifecycle` in the success case. -/
structure LifecycleResult where
  data : LifecycleData
  computed : LifecycleComputed
deriving DecidableEq, Repr

/-- `get_product_lifecycle`: `ok none` models the `None` returned when the
product or its `history` key is absent; `error` models an uncaught exception.
`now` stands for the `datetime.now()` read inside `compute_days_in_stage`. -/
def get_product_lifecycle (now : PyDate) (product : Option Product) :
    Except String (Option LifecycleResult) :=
  match product with
  | none => .ok none
  | some p =>
    match p.history with
    | none => .ok none
    | some h =>
      let history := sortByDate h
      match calculate_lifecycle_metrics history with
      | .error e => .error e
      | .ok data =>
        match compute_days_in_stage now data with
        | .error e => .error e
        | .ok days =>
          .ok (some ⟨data,
            ⟨compute_lifecycle_stage data, days, compute_stage_risk data⟩⟩)

/-! ## DemandAggregator (`analysis/demand.py`) and the tool wrapper -/

/-- Model of the Python built-in `round(x, n)`: round to `n` decimal digits,
ties to the even integer of scaled units (banker rounding). -/
def pyRound (x : ℚ) (n : ℕ) : ℚ :=
  let scaled := x * 10 ^ n
  let fl : ℤ := ⌊scaled⌋
  let frac := scaled - (fl : ℚ)
  let r : ℤ :=
    if frac < 1/2 then fl
    else if 1/2 < frac then fl + 1
    else if fl % 2 = 0 then fl else fl + 1
  (r : ℚ) / 10 ^ n

/-- Decimal rendering of a number zero-padded to two digits (`%m` in
`strftime`). -/
def pad2 (n : ℕ) : String :=
  if n < 10 then "0" ++ toString n else toString n

/-- Decimal rendering of a year zero-padded to four digits (`%Y` in
`strftime`). -/
def pad4 (n : ℕ) : String :=
  if n < 10 then "000" ++ toString n
  else if n < 100 then "00" ++ toString n
  else if n < 1000 then "0" ++ toString n
  else toString n

/-- `date.strftime("%Y-%m")`: the month key of the demand grouping. -/
def monthKey (d : PyDate) : String :=
  pad4 d.year ++ "-" ++ pad2 d.month

/-- The per-month accumulator dict of the demand grouping loop.  The
`average_price` entry is initialised to 0 and never updated by the loop; the
averages emitted in the time series are computed separately. -/
structure MonthlyBucket where
  sales : ℚ
  revenue : ℚ
  returns : ℚ
  average_price : ℚ
  num_transactions : ℕ
deriving DecidableEq, Repr

/-- The freshly initialised bucket dict. -/
def emptyBucket : MonthlyBucket := ⟨0, 0, 0, 0, 0⟩

/-- One iteration of the accumulation: note `entry.get("returns", 0)`, which
defaults an absent `returns` key to 0. -/
def addToBucket (r : SalesRecord) (b : MonthlyBucket) : MonthlyBucket :=
  { b with
    sales := b.sales + r.sales
    revenue := b.revenue + r.sales * r.price
    returns := b.returns + r.returns.getD 0
    num_transactions := b.num_transactions + 1 }

/-- Update the insertion-ordered month dict at key `k`, creating the bucket at
the end if `k` is fresh. -/
def upsertBucket (k : String) (r : SalesRecord) :
    List (String × MonthlyBucket) → List (String × MonthlyBucket)
  | [] => [(k, addToBucket r emptyBucket)]
  | (k₁, b) :: rest =>
    if k₁ = k then (k₁, addToBucket r b) :: rest
    else (k₁, b) :: upsertBucket k r rest

/-- The grouping loop of `get_product_demand`: each entry date is parsed again
and the entry is accumulated into the bucket of its `YYYY-MM` key. -/
def groupMonthly : List SalesRecord → List (String × MonthlyBucket) →
    Except String (List (String × MonthlyBucket))
  | [], acc => .ok acc
  | r :: rest, acc =>
    match fromisoformat r.date with
    | none => .error ("Invalid isoformat string: " ++ r.date)
    | some d => groupMonthly rest (upsertBucket (monthKey d) r acc)

/-- The date-range filtering loop: parse each entry date and keep the records
with `start <= entry_date <= end` (inclusive both ends). -/
def filterInRange (start stop : PyDate) : List SalesRecord →
    Except String (List SalesRecord)
  | [] => .ok []
  | r :: rest =>
    match fromisoformat r.date with
    | none => .error ("Invalid isoformat string: " ++ r.date)
    | some d =>
      match filterInRange start stop rest with
      | .error e => .error e
      | .ok l => .ok (if start.leB d && d.leB stop then r :: l else l)

/-- Insert a string into a sorted list of strings (`sorted` over dict keys;
the keys are distinct, so stability is irrelevant). -/
def insertStr (s : String) : List String → List String
  | [] => [s]
  | x :: rest => if x ≤ s then x :: insertStr s rest else s :: x :: rest

/-- `sorted(monthly_data.keys())`: ascending lexicographic order. -/
def sortStrings (l : List String) : List String :=
  l.foldr insertStr []

/-- `monthly_data[month]`: dict lookup by key (the keys looked up always come
from the dict itself, so the `[]` fallback is unreachable). -/
def lookupBucket (k : String) : List (String × MonthlyBucket) → MonthlyBucket
  | [] => emptyBucket
  | (k₁, b) :: rest => if k₁ = k then b else lookupBucket k rest

/-- One element of the emitted `time_series`. -/
structure MonthlyEntry where
  month : String
  total_sales : ℚ
  total_revenue : ℚ
  total_returns : ℚ
  average_price : ℚ
  return_rate : ℚ
deriving DecidableEq, Repr

/-- Formatting of one month bucket into a time-series element. -/
def mkMonthlyEntry (month : String) (b : MonthlyBucket) : MonthlyEntry :=
  let avg_price := if 0 < b.sales then b.revenue / b.sales else 0
  { month := month
    total_sales := b.sales
    total_revenue := pyRound b.revenue 2
    total_returns := b.returns
    average_price := pyRound avg_price 2
    return_rate := if 0 < b.sales then pyRound (b.returns / b.sales) 4 else 0 }

/-- The `summary` dict of the demand result. -/
structure DemandSummary where
  total_months : ℕ
  total_sales : ℚ
  total_revenue : ℚ
  average_monthly_sales : ℚ
deriving DecidableEq, Repr

/-- The dict returned by `get_product_demand` in the success case. -/
structure DemandResult where
  time_series : List MonthlyEntry
  summary : DemandSummary
deriving DecidableEq, Repr

/-- `get_product_demand`: `none` models both the not-found `None` and the
`None` returned by the `except` block, which logs and swallows every
exception raised inside the `try` (date parsing included). -/
def get_product_demand (product : Option Product)
    (start_date end_date : String) : Option DemandResult :=
  match product with
  | none => none
  | some p =>
    match p.history with
    | none => none
    | some h =>
      match fromisoformat start_date, fromisoformat end_date with
      | some start, some stop =>
        match filterInRange start stop h with
        | .error _ => none
        | .ok filtered =>
          match groupMonthly filtered [] with
          | .error _ => none
          | .ok monthly_data =>
            let keys := sortStrings (monthly_data.map Prod.fst)
            let time_series := keys.map fun k => mkMonthlyEntry k (lookupBucket k monthly_data)
            some
              { time_series := time_series
                summary :=
                  { total_months := time_series.length
                    total_sales := (time_series.map (·.total_sales)).sum
                    total_revenue := pyRound ((time_series.map (·.total_revenue)).sum) 2
                    average_monthly_sales :=
                      if ¬ time_series.isEmpty then
                        pyRound ((time_series.map (·.total_sales)).sum / (time_series.length : ℚ)) 2
                      else 0 } }
      | _, _ => none

/-- `DemandTool.validate_input`: the product id must be a non-blank string,
both dates must parse (`ValueError` is caught and turned into `False`) and
the start must not lie after the end. -/
def demand_validate_input (product_id start_date end_date : String) : Bool :=
  if product_id.trim.isEmpty then false
  else
    match fromisoformat start_date, fromisoformat end_date with
    | some start, some stop => start.leB stop
    | _, _ => false

/-- `DemandTool.execute`: failed validation raises
`ValueError("Invalid input parameters")`, which the `except` block re-raises
after recording metrics; otherwise the analyzer result (possibly `None`) is
returned. -/
def DemandTool_execute (product : Option Product)
    (product_id start_date end_date : String) :
    Except String (Option DemandResult) :=
  if demand_validate_input product_id start_date end_date then
    .ok (get_product_demand product start_date end_date)
  else
    .error "Invalid input parameters"

/-! ## Helper lemmas -/

theorem pyRound_low (x : ℚ) (n : ℕ) (z : ℤ) (h1 : (z : ℚ) ≤ x * 10 ^ n)
    (h2 : x * 10 ^ n - (z : ℚ) < 1/2) : pyRound x n = (z : ℚ) / 10 ^ n := by
  have hfl : ⌊x * 10 ^ n⌋ = z := by
    rw [Int.floor_eq_iff]
    constructor
    · exact_mod_cast h1
    · linarith
  simp only [pyRound, hfl]
  rw [if_pos h2]

theorem pyRound_high (x : ℚ) (n : ℕ) (z : ℤ) (h1 : (z : ℚ) ≤ x * 10 ^ n)
    (h2 : (1 : ℚ)/2 < x * 10 ^ n - (z : ℚ)) (h3 : x * 10 ^ n < (z : ℚ) + 1) :
    pyRound x n = ((z : ℚ) + 1) / 10 ^ n := by
  have hfl : ⌊x * 10 ^ n⌋ = z := by
    rw [Int.floor_eq_iff]
    constructor
    · exact_mod_cast h1
    · linarith
  simp only [pyRound, hfl]
  rw [if_neg (by linarith), if_pos h2]
  push_cast
  ring

theorem pyRound_exact (x : ℚ) (n : ℕ) (z : ℤ) (h : x * 10 ^ n = (z : ℚ)) :
    pyRound x n = x := by
  have h10 : (0 : ℚ) < 10 ^ n := by positivity
  rw [pyRound_low x n z (le_of_eq h.symm) (by rw [h]; norm_num)]
  field_simp [← h]

/-- Projection used to state results about the metrics dict of a lifecycle
result: `some m` when the call succeeded with a product, `none` otherwise. -/
def lifecycleMetricsOf (r : Except String (Option LifecycleResult)) :
    Option (Option LifecycleMetricsVals) :=
  match r with
  | .ok (some res) => some res.data.metrics
  | _ => none

/-! ## Claim theorems -/

/-- Claim C1: the spec says `computeSeasonality` on a present-but-empty history
returns a default empty-pattern result and never raises.  The code disagrees:
`calculate_seasonality_metrics` returns the guard value
`{"seasonality_patterns": {}}`, and `interpret_seasonality` then reads
`patterns["seasonality_strength"]` from that empty dict, raising `KeyError`,
which `get_product_seasonality` does not catch.  This theorem evaluates the
code at the failing input (a product with `history = []`). -/
theorem seasonality_empty_history_raises_keyerror :
    get_product_seasonality (some ⟨some []⟩) =
      .error "KeyError: seasonality_strength" := rfl

/-- Claim C2 counterexample: on an empty history the lifecycle result exists
but its metrics dict is the empty dict (`none` in the model), so the metric
fields are not present with value 0 as the claim states. -/
theorem lifecycle_empty_history_metrics_dict_empty :
    lifecycleMetricsOf (get_product_lifecycle ⟨2025, 1, 1⟩ (some ⟨some []⟩)) =
      some none := rfl

/-- Claim C2 as amended: for a present-but-empty history,
`computeLifecycle` returns a result whose metrics dict is empty (each metric
absent and only read as 0 through downstream `get` defaults), whose
`stage_start_date` is absent, and whose computed block is
`current_stage = "introduction"`, `days_in_stage = 0`,
`stage_transition_risk = 0`, at every evaluation instant. -/
theorem lifecycle_empty_history_default_result (now : PyDate) :
    get_product_lifecycle now (some ⟨some []⟩) =
      .ok (some ⟨⟨none, none⟩, ⟨"introduction", 0, 0⟩⟩) := by
  have hstage : compute_lifecycle_stage ⟨none, none⟩ = "introduction" := by
    norm_num [compute_lifecycle_stage]
  have hrisk : compute_stage_risk ⟨none, none⟩ = 0 := by
    norm_num [compute_stage_risk]
  simp [get_product_lifecycle, sortByDate, calculate_lifecycle_metrics,
    compute_days_in_stage, hstage, hrisk]

/-- Claim C3: an unparseable start or end date makes the demand pipeline fail
with a validation error that propagates to the caller: `DemandTool.execute`
validates both dates before calling the analyzer and raises
`ValueError("Invalid input parameters")`, re-raised by its `except` block, so
the failure is never folded into a `None` not-found result. -/
theorem demand_unparseable_date_fails (product : Option Product)
    (product_id start_date end_date : String)
    (h : fromisoformat start_date = none ∨ fromisoformat end_date = none) :
    DemandTool_execute product product_id start_date end_date =
      .error "Invalid input parameters" := by
  have hv : demand_validate_input product_id start_date end_date = false := by
    rcases h with h | h
    · simp [demand_validate_input, h]
    · cases hx : fromisoformat start_date <;>
        simp [demand_validate_input, h, hx]
  simp [DemandTool_execute, hv]

/-- Claim C3 witness: the concrete string `"garbage"` does not parse, and the
tool call with it fails with the validation error. -/
theorem demand_unparseable_date_fails_witness :
    fromisoformat "garbage" = none ∧
      DemandTool_execute none "p1" "garbage" "2024-01-01" =
        .error "Invalid input parameters" :=
  ⟨by decide,
    demand_unparseable_date_fails none "p1" "garbage" "2024-01-01" (Or.inl (by decide))⟩

/-- The classifier as a single conditional: since neither branch of
`calculate_lifecycle_metrics` ever stores a `market_share` entry, the
`market_share` getter always yields 0, which falsifies the maturity and
growth guards. -/
theorem compute_lifecycle_stage_eq (d : LifecycleData) :
    compute_lifecycle_stage d =
      (if (match d.metrics with | none => (0 : ℚ) | some m => m.growth_rate) < 0
       then "decline" else "introduction") := by
  simp only [compute_lifecycle_stage]
  norm_num

/-- The maturity branch of the classifier is unreachable. -/
theorem compute_lifecycle_stage_ne_maturity (d : LifecycleData) :
    compute_lifecycle_stage d ≠ "maturity" := by
  rw [compute_lifecycle_stage_eq]
  split <;> simp

/-- The growth branch of the classifier is unreachable. -/
theorem compute_lifecycle_stage_ne_growth (d : LifecycleData) :
    compute_lifecycle_stage d ≠ "growth" := by
  rw [compute_lifecycle_stage_eq]
  split <;> simp

/-- Claim C4: for every non-empty history the computed stage is `"decline"`
exactly when the growth rate is negative and `"introduction"` in every other
case; the `"maturity"` and `"growth"` branches are unreachable because no
branch of `calculate_lifecycle_metrics` stores a `market_share` entry, so
`metrics.get("market_share", 0)` always reads 0 at classification time. -/
theorem lifecycle_stage_decline_or_introduction (history : List SalesRecord)
    (d : LifecycleData) (hne : history ≠ [])
    (hok : calculate_lifecycle_metrics history = .ok d) :
    ∃ m, d.metrics = some m ∧
      compute_lifecycle_stage d =
        (if m.growth_rate < 0 then "decline" else "introduction") ∧
      compute_lifecycle_stage d ≠ "maturity" ∧
      compute_lifecycle_stage d ≠ "growth" := by
  obtain ⟨first, rest, rfl⟩ := List.exists_cons_of_ne_nil hne
  rw [calculate_lifecycle_metrics] at hok
  cases hcp : calculate_competitive_pressure (first :: rest) with
  | error e => rw [hcp] at hok; exact absurd hok (by simp)
  | ok cp =>
    rw [hcp] at hok
    simp only [Except.ok.injEq] at hok
    subst hok
    exact ⟨_, rfl, by rw [compute_lifecycle_stage_eq],
      compute_lifecycle_stage_ne_maturity _, compute_lifecycle_stage_ne_growth _⟩

/-- Claim C4 witness: a concrete single-record history whose metrics compute
to growth rate 0, hence stage `"introduction"`. -/
theorem lifecycle_stage_decline_or_introduction_witness :
    ([⟨"2024-01-01", 1, 1, some 0⟩] : List SalesRecord) ≠ [] ∧
      calculate_lifecycle_metrics [⟨"2024-01-01", 1, 1, some 0⟩] =
        .ok ⟨some ⟨0, 0, 1, 0⟩, some "2024-01-01"⟩ ∧
      ∃ m, (⟨some ⟨0, 0, 1, 0⟩, some "2024-01-01"⟩ : LifecycleData).metrics = some m ∧
        compute_lifecycle_stage ⟨some ⟨0, 0, 1, 0⟩, some "2024-01-01"⟩ =
          (if m.growth_rate < 0 then "decline" else "introduction") ∧
        compute_lifecycle_stage ⟨some ⟨0, 0, 1, 0⟩, some "2024-01-01"⟩ ≠ "maturity" ∧
        compute_lifecycle_stage ⟨some ⟨0, 0, 1, 0⟩, some "2024-01-01"⟩ ≠ "growth" := by
  have heval : calculate_lifecycle_metrics [⟨"2024-01-01", 1, 1, some 0⟩] =
      .ok ⟨some ⟨0, 0, 1, 0⟩, some "2024-01-01"⟩ := by
    have hq : quarterSums [⟨"2024-01-01", 1, 1, some 0⟩] = [1] := by
      simp [quarterSums, List.take_of_length_le]
    have hcp : calculate_competitive_pressure [⟨"2024-01-01", 1, 1, some 0⟩] = .ok 0 := by
      norm_num [calculate_competitive_pressure, priceSteps, sumReturns]
    rw [calculate_lifecycle_metrics, hcp]
    norm_num [hq, growthRates, calculate_volatility, listMax]
  exact ⟨by simp, heval,
    lifecycle_stage_decline_or_introduction _ _ (by simp) heval⟩

/-- A non-empty history yields a non-empty quarter list. -/
theorem quarterSums_ne_nil (r : SalesRecord) (rest : List SalesRecord) :
    quarterSums (r :: rest) ≠ [] := by
  rw [quarterSums]
  simp

/-- Every quarter sum over a history of non-negative sales is non-negative. -/
theorem quarterSums_nonneg (h : List SalesRecord)
    (hs : ∀ r ∈ h, 0 ≤ r.sales) : ∀ q ∈ quarterSums h, 0 ≤ q := by
  induction h using quarterSums.induct with
  | case1 => intro q hq; simp [quarterSums] at hq
  | case2 r rest ih =>
    intro q hq
    rw [quarterSums] at hq
    rcases List.mem_cons.mp hq with rfl | hq
    · apply List.sum_nonneg
      intro x hx
      obtain ⟨a, ha, rfl⟩ := List.mem_map.mp hx
      exact hs a (List.mem_of_mem_take ha)
    · refine ih (fun x hx => hs x ?_) q hq
      exact List.mem_cons_of_mem _ (List.mem_of_mem_drop hx)

/-- The seed of a `foldl max` is a lower bound of the result. -/
theorem le_foldl_max (l : List ℚ) (a : ℚ) : a ≤ l.foldl max a := by
  induction l generalizing a with
  | nil => exact le_refl a
  | cons b l ih => exact le_trans (le_max_left a b) (ih (max a b))

/-- Every member of the list is bounded by the `foldl max` over it. -/
theorem mem_le_foldl_max (l : List ℚ) : ∀ (a x : ℚ), x ∈ l → x ≤ l.foldl max a := by
  induction l with
  | nil => intro a x hx; cases hx
  | cons b l ih =>
    intro a x hx
    rcases List.mem_cons.mp hx with rfl | hx
    · exact le_trans (le_max_right a x) (le_foldl_max l (max a x))
    · exact ih (max a b) x hx

/-- `max(quarters)` bounds every member of a non-empty list. -/
theorem mem_le_listMax (l : List ℚ) (x : ℚ) (hx : x ∈ l) : x ≤ listMax l := by
  cases l with
  | nil => cases hx
  | cons a rest =>
    rcases List.mem_cons.mp hx with rfl | hx
    · exact le_foldl_max rest x
    · exact mem_le_foldl_max rest a x hx

/-- Claim C9: for every non-empty history with non-negative sales, the
computed `market_saturation` lies in `[0, 1]`: the final quarter window sum
never exceeds the maximum window sum, and the ratio defaults to 0 when the
maximum is not positive. -/
theorem lifecycle_market_saturation_in_unit_interval (history : List SalesRecord)
    (d : LifecycleData) (m : LifecycleMetricsVals) (hne : history ≠ [])
    (hs : ∀ r ∈ history, 0 ≤ r.sales)
    (hok : calculate_lifecycle_metrics history = .ok d)
    (hm : d.metrics = some m) :
    0 ≤ m.market_saturation ∧ m.market_saturation ≤ 1 := by
  obtain ⟨first, rest, rfl⟩ := List.exists_cons_of_ne_nil hne
  rw [calculate_lifecycle_metrics] at hok
  cases hcp : calculate_competitive_pressure (first :: rest) with
  | error e => rw [hcp] at hok; exact absurd hok (by simp)
  | ok cp =>
    rw [hcp] at hok
    simp only [Except.ok.injEq] at hok
    subst hok
    simp only [Option.some.injEq] at hm
    subst hm
    simp only
    have hqne : quarterSums (first :: rest) ≠ [] := quarterSums_ne_nil first rest
    have hnonneg := quarterSums_nonneg (first :: rest) hs
    have hlast : (quarterSums (first :: rest)).getLast?.getD 0 ∈ quarterSums (first :: rest) := by
      rw [List.getLast?_eq_getLast _ hqne]
      exact List.getLast_mem hqne
    rw [if_pos (show ¬(quarterSums (first :: rest)).isEmpty = true by simp [hqne])]
    split
    case isTrue hpk =>
      constructor
      · exact div_nonneg (hnonneg _ hlast) (le_of_lt hpk)
      · rw [div_le_one hpk]
        exact mem_le_listMax _ _ hlast
    case isFalse hpk =>
      norm_num

/-- Claim C9 witness: a concrete single-record history whose saturation
computes to 1. -/
theorem lifecycle_market_saturation_in_unit_interval_witness :
    calculate_lifecycle_metrics [⟨"2024-03-01", 5, 2, some 0⟩] =
        .ok ⟨some ⟨0, 0, 1, 0⟩, some "2024-03-01"⟩ ∧
      (0 : ℚ) ≤ (1 : ℚ) ∧ (1 : ℚ) ≤ (1 : ℚ) := by
  have heval : calculate_lifecycle_metrics [⟨"2024-03-01", 5, 2, some 0⟩] =
      .ok ⟨some ⟨0, 0, 1, 0⟩, some "2024-03-01"⟩ := by
    have hq : quarterSums [⟨"2024-03-01", 5, 2, some 0⟩] = [5] := by
      simp [quarterSums, List.take_of_length_le]
    have hcp : calculate_competitive_pressure [⟨"2024-03-01", 5, 2, some 0⟩] = .ok 0 := by
      norm_num [calculate_competitive_pressure, priceSteps, sumReturns]
    rw [calculate_lifecycle_metrics, hcp]
    norm_num [hq, growthRates, calculate_volatility, listMax]
  refine ⟨heval, ?_⟩
  have := lifecycle_market_saturation_in_unit_interval
    [⟨"2024-03-01", 5, 2, some 0⟩] ⟨some ⟨0, 0, 1, 0⟩, some "2024-03-01"⟩
    ⟨0, 0, 1, 0⟩ (by simp) (by norm_num) heval rfl
  exact this

/-- Projection used to state results about the seasonality strength:
`some x` when the computation produced a populated pattern dict with
strength `x`. -/
def seasonalityStrengthOf (r : Except String SeasonalityData) : Option ℚ :=
  match r with
  | .ok (.full p _) => some p.seasonality_strength
  | _ => none

/-- Claim C5 counterexample: the claim says any single-record history,
including one with `sales = 0`, yields `seasonality_strength = 0`.  At the
concrete record with `sales = 0` the overall average is 0, the guard maps the
index of the sole month to 0 instead of 1, and the strength evaluates to
`min(1, 2 * (0 - 1)^2) = 1`, not 0. -/
theorem seasonality_single_zero_sales_strength_not_zero :
    seasonalityStrengthOf
        (calculate_seasonality_metrics [⟨"2024-01-10", 0, 5, some 0⟩]) ≠
      some 0 := by
  have hp : fromisoformat "2024-01-10" = some ⟨2024, 1, 10⟩ := by decide
  have hb : buildMonthlyPatterns [⟨"2024-01-10", 0, 5, some 0⟩] [] =
      .ok [(1, [0])] := by
    simp [buildMonthlyPatterns, hp, appendToMonth]
  norm_num [calculate_seasonality_metrics, hb, seasonalityStrengthOf,
    calculate_seasonality_strength]

/-- Claim C5 as amended: a single-record history with positive sales yields
`seasonality_strength = 0` (the sole index is 1); with `sales = 0` the sole
index is 0 (the zero-average guard) and the strength is 1. -/
theorem seasonality_single_record_strength (date : String) (s p : ℚ)
    (r : Option ℚ) (dd : PyDate) (hp : fromisoformat date = some dd) :
    (0 < s → seasonalityStrengthOf
        (calculate_seasonality_metrics [⟨date, s, p, r⟩]) = some 0) ∧
    (s = 0 → seasonalityStrengthOf
        (calculate_seasonality_metrics [⟨date, s, p, r⟩]) = some 1) := by
  have hb : buildMonthlyPatterns [⟨date, s, p, r⟩] [] = .ok [(dd.month, [s])] := by
    simp [buildMonthlyPatterns, hp, appendToMonth]
  constructor
  · intro hs
    have hsne : s ≠ 0 := ne_of_gt hs
    norm_num [calculate_seasonality_metrics, hb, seasonalityStrengthOf,
      calculate_seasonality_strength, hs, div_self hsne]
  · intro hs
    subst hs
    norm_num [calculate_seasonality_metrics, hb, seasonalityStrengthOf,
      calculate_seasonality_strength]

/-- Claim C5 witness: the amended statement applied at a concrete record with
sales 7 (and the parse hypothesis discharged on the concrete date). -/
theorem seasonality_single_record_strength_witness :
    fromisoformat "2024-03-05" = some ⟨2024, 3, 5⟩ ∧
      ((0 < (7 : ℚ) → seasonalityStrengthOf
          (calculate_seasonality_metrics [⟨"2024-03-05", 7, 2, none⟩]) = some 0) ∧
       ((7 : ℚ) = 0 → seasonalityStrengthOf
          (calculate_seasonality_metrics [⟨"2024-03-05", 7, 2, none⟩]) = some 1)) :=
  ⟨by decide,
    seasonality_single_record_strength "2024-03-05" 7 2 none ⟨2024, 3, 5⟩ (by decide)⟩

/-- Normalise a record by making the default of its optional `returns` field
explicit. -/
def withDefaultReturns (r : SalesRecord) : SalesRecord :=
  { r with returns := some (r.returns.getD 0) }

/-- Normalise every record of a product history. -/
def productWithDefaultReturns (p : Product) : Product :=
  ⟨p.history.map (List.map withDefaultReturns)⟩

theorem addToBucket_withDefault (r : SalesRecord) (b : MonthlyBucket) :
    addToBucket (withDefaultReturns r) b = addToBucket r b := by
  simp [addToBucket, withDefaultReturns]

theorem upsertBucket_withDefault (k : String) (r : SalesRecord) :
    ∀ acc, upsertBucket k (withDefaultReturns r) acc = upsertBucket k r acc := by
  intro acc
  induction acc with
  | nil => simp [upsertBucket, addToBucket_withDefault]
  | cons p rest ih =>
    obtain ⟨k₁, b⟩ := p
    by_cases hk : k₁ = k <;> simp [upsertBucket, hk, addToBucket_withDefault, ih]

theorem groupMonthly_withDefault (l : List SalesRecord) :
    ∀ acc, groupMonthly (l.map withDefaultReturns) acc = groupMonthly l acc := by
  induction l with
  | nil => intro acc; simp [groupMonthly]
  | cons r rest ih =>
    intro acc
    have hdate : (withDefaultReturns r).date = r.date := rfl
    cases hp : fromisoformat r.date with
    | none => simp [groupMonthly, hdate, hp]
    | some d => simp [groupMonthly, hdate, hp, upsertBucket_withDefault, ih]

theorem filterInRange_withDefault (start stop : PyDate) (l : List SalesRecord) :
    filterInRange start stop (l.map withDefaultReturns) =
      Except.map (List.map withDefaultReturns) (filterInRange start stop l) := by
  induction l with
  | nil => simp [filterInRange, Except.map]
  | cons r rest ih =>
    have hdate : (withDefaultReturns r).date = r.date := rfl
    cases hp : fromisoformat r.date with
    | none => simp [filterInRange, hdate, hp, Except.map]
    | some d =>
      simp only [List.map_cons, filterInRange, hdate, hp, ih]
      cases filterInRange start stop rest with
      | error e => simp [Except.map]
      | ok fl => simp [Except.map, apply_ite (List.map withDefaultReturns)]

theorem sumReturns_missing (l : List SalesRecord)
    (h : ∃ r ∈ l, r.returns = none) :
    sumReturns l = .error "KeyError: returns" := by
  induction l with
  | nil => obtain ⟨r, hr, _⟩ := h; cases hr
  | cons x rest ih =>
    obtain ⟨r, hr, hnone⟩ := h
    rcases List.mem_cons.mp hr with rfl | hr
    · rw [sumReturns, hnone]
    · cases hx : x.returns with
      | none => rw [sumReturns, hx]
      | some v => rw [sumReturns, hx, ih ⟨r, hr, hnone⟩]

/-- Claim C6 counterexample: the claim says every analyzer defaults an absent
`returns` field to 0 and completes; the lifecycle return-rate computation
instead reads `day["returns"]` without a default and raises `KeyError` on a
record that omits the field. -/
theorem lifecycle_missing_returns_keyerror :
    calculate_competitive_pressure [⟨"2024-01-10", 1, 1, none⟩] =
      .error "KeyError: returns" := rfl

/-- Claim C6 as amended: the demand monthly aggregation reads the field as
`entry.get("returns", 0)`, so making the default explicit on every record does
not change its result; the lifecycle return-rate computation instead requires
the field and fails with an exception whenever any record omits it. -/
theorem demand_defaults_returns_lifecycle_raises :
    (∀ (product : Option Product) (start_date end_date : String),
        get_product_demand (product.map productWithDefaultReturns)
            start_date end_date =
          get_product_demand product start_date end_date) ∧
    (∀ history : List SalesRecord, (∃ r ∈ history, r.returns = none) →
        ∃ msg, calculate_competitive_pressure history = .error msg) := by
  constructor
  · intro product start_date end_date
    cases product with
    | none => rfl
    | some p =>
      cases hh : p.history with
      | none => simp [get_product_demand, productWithDefaultReturns, hh]
      | some h =>
        simp only [Option.map_some, get_product_demand,
          productWithDefaultReturns, hh, Option.map]
        cases fromisoformat start_date <;> cases fromisoformat end_date <;>
          try rfl
        case some.some start stop =>
          dsimp only
          rw [filterInRange_withDefault]
          cases filterInRange start stop h with
          | error e => rfl
          | ok filtered =>
            simp only [Except.map]
            rw [groupMonthly_withDefault]
  · intro history h
    have hne : history ≠ [] := by
      obtain ⟨r, hr, _⟩ := h
      exact List.ne_nil_of_mem hr
    rw [calculate_competitive_pressure, if_neg (by simp [hne])]
    dsimp only
    rw [sumReturns_missing history h]
    cases hps : priceSteps (List.map (fun x => x.price) history) with
    | error e => exact ⟨e, rfl⟩
    | ok l => exact ⟨"KeyError: returns", rfl⟩

/-- Claim C6 witness: both amended parts applied at a concrete single-record
history whose `returns` key is absent. -/
theorem demand_defaults_returns_lifecycle_raises_witness :
    (get_product_demand
        ((some ⟨some [⟨"2024-01-10", 2, 3, none⟩]⟩ : Option Product).map
          productWithDefaultReturns) "2024-01-01" "2024-12-31" =
      get_product_demand (some ⟨some [⟨"2024-01-10", 2, 3, none⟩]⟩)
        "2024-01-01" "2024-12-31") ∧
    (∃ r ∈ ([⟨"2024-01-10", 2, 3, none⟩] : List SalesRecord), r.returns = none) ∧
    (∃ msg, calculate_competitive_pressure
        [⟨"2024-01-10", 2, 3, none⟩] = .error msg) :=
  ⟨demand_defaults_returns_lifecycle_raises.1 _ _ _,
    ⟨⟨"2024-01-10", 2, 3, none⟩, by simp, rfl⟩,
    demand_defaults_returns_lifecycle_raises.2 _
      ⟨⟨"2024-01-10", 2, 3, none⟩, by simp, rfl⟩⟩

/-- Claim C8 counterexample: the claim says the price-volatility step skips
pairs whose previous price is 0, so `computeLifecycle` never divides by zero
even on malformed input.  The comprehension has no such guard: on a history
whose first sorted record has price 0, the whole lifecycle call raises
`ZeroDivisionError`. -/
theorem lifecycle_zero_price_division_error :
    get_product_lifecycle ⟨2024, 6, 1⟩
        (some ⟨some [⟨"2024-01-01", 1, 0, some 0⟩, ⟨"2024-01-02", 1, 2, some 0⟩]⟩) =
      .error "float division by zero" := by
  have hlt : ¬("2024-01-02" < "2024-01-01") := by
    rw [String.lt_iff_toList_lt]; decide
  have hsort : sortByDate [⟨"2024-01-01", 1, 0, some 0⟩, ⟨"2024-01-02", 1, 2, some 0⟩] =
      [⟨"2024-01-01", 1, 0, some 0⟩, ⟨"2024-01-02", 1, 2, some 0⟩] := by
    simp [sortByDate, insertByDate, hlt]
  have hps : priceSteps [(0 : ℚ), 2] = .error "float division by zero" := by
    rw [priceSteps, if_pos rfl]
  have hcp : calculate_competitive_pressure
      [⟨"2024-01-01", 1, 0, some 0⟩, ⟨"2024-01-02", 1, 2, some 0⟩] =
      .error "float division by zero" := by
    rw [calculate_competitive_pressure, if_neg (by simp)]
    dsimp only [List.map]
    rw [hps]
  have hm : calculate_lifecycle_metrics
      [⟨"2024-01-01", 1, 0, some 0⟩, ⟨"2024-01-02", 1, 2, some 0⟩] =
      .error "float division by zero" := by
    rw [calculate_lifecycle_metrics]
    dsimp only
    rw [hcp]
  simp [get_product_lifecycle, hsort, hm]

/-- Helper for claim C8: the comprehension completes when every price except
possibly the last one is nonzero. -/
theorem priceSteps_ok_of_no_zero :
    ∀ prices : List ℚ, (∀ x ∈ prices.dropLast, x ≠ 0) →
      ∃ l, priceSteps prices = .ok l
  | [], _ => ⟨[], rfl⟩
  | [_], _ => ⟨[], rfl⟩
  | a :: b :: rest, hz => by
    have hdl : (a :: b :: rest).dropLast = a :: (b :: rest).dropLast := rfl
    have ha : a ≠ 0 := hz a (by rw [hdl]; exact List.mem_cons_self _ _)
    obtain ⟨l, hl⟩ := priceSteps_ok_of_no_zero (b :: rest)
      (fun x hx => hz x (by rw [hdl]; exact List.mem_cons_of_mem _ hx))
    exact ⟨(|b - a| / a) :: l, by rw [priceSteps, if_neg ha, hl]⟩

/-- Claim C8 as amended: the price-volatility comprehension divides by each
previous price with no zero guard: it completes whenever every price except
possibly the last is nonzero, and raises `ZeroDivisionError` whenever a
record with price 0 is followed by another record. -/
theorem price_volatility_no_zero_guard :
    (∀ prices : List ℚ, (∀ x ∈ prices.dropLast, x ≠ 0) →
        ∃ l, priceSteps prices = .ok l) ∧
    (∀ front rest : List ℚ, (∀ x ∈ front, x ≠ 0) → rest ≠ [] →
        priceSteps (front ++ 0 :: rest) = .error "float division by zero") := by
  constructor
  · exact priceSteps_ok_of_no_zero
  · intro front
    induction front with
    | nil =>
      intro rest _ hrest
      obtain ⟨b, rest', rfl⟩ := List.exists_cons_of_ne_nil hrest
      rw [List.nil_append, priceSteps, if_pos rfl]
    | cons a front₁ ih =>
      intro rest hz hrest
      have ha : a ≠ 0 := hz a (List.mem_cons_self _ _)
      have hne₂ : front₁ ++ 0 :: rest ≠ [] := by simp
      obtain ⟨b, tail, heq⟩ := List.exists_cons_of_ne_nil hne₂
      rw [List.cons_append, heq, priceSteps, if_neg ha, ← heq,
        ih rest (fun x hx => hz x (List.mem_cons_of_mem _ hx)) hrest]

/-- Claim C8 witness: the amended statement applied at a two-price list with
nonzero divisor (succeeds) and at a list whose zero price is followed by
another record (raises). -/
theorem price_volatility_no_zero_guard_witness :
    ((∀ x ∈ ([2, 3] : List ℚ).dropLast, x ≠ 0) ∧
      ∃ l, priceSteps [2, 3] = .ok l) ∧
    ((∀ x ∈ ([1] : List ℚ), x ≠ 0) ∧ ([4] : List ℚ) ≠ [] ∧
      priceSteps ([1] ++ 0 :: [4]) = .error "float division by zero") := by
  have h₁ : ∀ x ∈ ([2, 3] : List ℚ).dropLast, x ≠ 0 := by norm_num
  have h₂ : ∀ x ∈ ([1] : List ℚ), x ≠ 0 := by norm_num
  exact ⟨⟨h₁, price_volatility_no_zero_guard.1 [2, 3] h₁⟩,
    ⟨h₂, by simp, price_volatility_no_zero_guard.2 [1] [4] h₂ (by simp)⟩⟩

theorem flatMap_snd_sum (l : List (ℕ × List ℚ)) :
    (l.flatMap Prod.snd).sum = (l.map fun p => p.2.sum).sum := by
  induction l with
  | nil => rfl
  | cons p rest ih => simp [ih]

theorem flatMap_snd_length (l : List (ℕ × List ℚ)) :
    (l.flatMap Prod.snd).length = (l.map fun p => p.2.length).sum := by
  induction l with
  | nil => rfl
  | cons p rest ih => simp [ih]

theorem appendToMonth_flat_sum (m : ℕ) (s : ℚ) :
    ∀ acc, ((appendToMonth m s acc).flatMap Prod.snd).sum =
      (acc.flatMap Prod.snd).sum + s := by
  intro acc
  induction acc with
  | nil => simp [appendToMonth]
  | cons p rest ih =>
    obtain ⟨k, v⟩ := p
    by_cases hk : k = m
    · simp [appendToMonth, hk]
      ring
    · simp [appendToMonth, hk, ih]
      ring

theorem appendToMonth_flat_length (m : ℕ) (s : ℚ) :
    ∀ acc, ((appendToMonth m s acc).flatMap Prod.snd).length =
      (acc.flatMap Prod.snd).length + 1 := by
  intro acc
  induction acc with
  | nil => simp [appendToMonth]
  | cons p rest ih =>
    obtain ⟨k, v⟩ := p
    by_cases hk : k = m
    · simp [appendToMonth, hk]
      omega
    · simp [appendToMonth, hk, ih]
      omega

theorem appendToMonth_groups_ne_nil (m : ℕ) (s : ℚ) :
    ∀ acc, (∀ g ∈ acc, g.2 ≠ []) →
      ∀ g ∈ appendToMonth m s acc, g.2 ≠ [] := by
  intro acc
  induction acc with
  | nil =>
    intro _ g hg
    rcases List.mem_singleton.mp hg with rfl
    simp
  | cons p rest ih =>
    obtain ⟨k, v⟩ := p
    intro hacc g hg
    by_cases hk : k = m
    · rw [appendToMonth, if_pos hk] at hg
      rcases List.mem_cons.mp hg with rfl | hg
      · simp
      · exact hacc g (List.mem_cons_of_mem _ hg)
    · rw [appendToMonth, if_neg hk] at hg
      rcases List.mem_cons.mp hg with rfl | hg
      · exact hacc _ (List.mem_cons_self _ _)
      · exact ih (fun g hg => hacc g (List.mem_cons_of_mem _ hg)) g hg

theorem buildMonthlyPatterns_flat_sum :
    ∀ (h : List SalesRecord) (acc mp : List (ℕ × List ℚ)),
      buildMonthlyPatterns h acc = .ok mp →
      (mp.flatMap Prod.snd).sum =
        (acc.flatMap Prod.snd).sum + (h.map (·.sales)).sum := by
  intro h
  induction h with
  | nil =>
    intro acc mp hok
    simp only [buildMonthlyPatterns, Except.ok.injEq] at hok
    subst hok
    simp
  | cons r rest ih =>
    intro acc mp hok
    rw [buildMonthlyPatterns] at hok
    cases hp : fromisoformat r.date with
    | none => rw [hp] at hok; cases hok
    | some d =>
      rw [hp] at hok
      have := ih (appendToMonth d.month r.sales acc) mp hok
      rw [this, appendToMonth_flat_sum]
      simp
      ring

theorem buildMonthlyPatterns_flat_length :
    ∀ (h : List SalesRecord) (acc mp : List (ℕ × List ℚ)),
      buildMonthlyPatterns h acc = .ok mp →
      (mp.flatMap Prod.snd).length = (acc.flatMap Prod.snd).length + h.length := by
  intro h
  induction h with
  | nil =>
    intro acc mp hok
    simp only [buildMonthlyPatterns, Except.ok.injEq] at hok
    subst hok
    simp
  | cons r rest ih =>
    intro acc mp hok
    rw [buildMonthlyPatterns] at hok
    cases hp : fromisoformat r.date with
    | none => rw [hp] at hok; cases hok
    | some d =>
      rw [hp] at hok
      have := ih (appendToMonth d.month r.sales acc) mp hok
      rw [this, appendToMonth_flat_length]
      simp
      omega

theorem buildMonthlyPatterns_groups_ne_nil :
    ∀ (h : List SalesRecord) (acc mp : List (ℕ × List ℚ)),
      (∀ g ∈ acc, g.2 ≠ []) →
      buildMonthlyPatterns h acc = .ok mp →
      ∀ g ∈ mp, g.2 ≠ [] := by
  intro h
  induction h with
  | nil =>
    intro acc mp hacc hok
    simp only [buildMonthlyPatterns, Except.ok.injEq] at hok
    subst hok
    exact hacc
  | cons r rest ih =>
    intro acc mp hacc hok
    rw [buildMonthlyPatterns] at hok
    cases hp : fromisoformat r.date with
    | none => rw [hp] at hok; cases hok
    | some d =>
      rw [hp] at hok
      exact ih (appendToMonth d.month r.sales acc) mp
        (appendToMonth_groups_ne_nil d.month r.sales acc hacc) hok

theorem zip_self_map {α β : Type} (l : List α) (f : α → β) :
    l.zip (l.map f) = l.map fun a => (a, f a) := by
  induction l with
  | nil => rfl
  | cons a l ih => simp [ih]

/-- Claim C10: for every non-empty history whose overall average sales is
positive, the record-count-weighted sum of the monthly seasonality indices
equals the total number of records (so their count-weighted mean is exactly
1): pairing each month group of the history with its emitted index, the sum
of `count[m] * index[m]` is the history length. -/
theorem seasonality_weighted_mean_of_indices (history : List SalesRecord)
    (mp : List (ℕ × List ℚ)) (pat : SeasonalityPatterns) (met : SeasonalityMetrics)
    (hne : history ≠ [])
    (hbm : buildMonthlyPatterns history [] = .ok mp)
    (hok : calculate_seasonality_metrics history = .ok (.full pat met))
    (hpos : 0 < met.overall_average_sales) :
    ((mp.zip pat.monthly_indices).map fun q => (q.1.2.length : ℚ) * q.2.2).sum =
      (history.length : ℚ) := by
  rw [calculate_seasonality_metrics, if_neg (by simp [hne]), hbm] at hok
  dsimp only at hok
  simp only [Except.ok.injEq, SeasonalityData.full.injEq] at hok
  obtain ⟨hpat, hmet⟩ := hok
  subst hpat
  subst hmet
  dsimp only at hpos ⊢
  have hAlen : (mp.flatMap Prod.snd).length = history.length := by
    have := buildMonthlyPatterns_flat_length history [] mp hbm
    simpa using this
  have hAne : mp.flatMap Prod.snd ≠ [] := by
    intro h0
    apply hne
    rw [← List.length_eq_zero, ← hAlen, h0]
    rfl
  have hov : (if ¬(mp.flatMap Prod.snd).isEmpty = true then
        (mp.flatMap Prod.snd).sum / ((mp.flatMap Prod.snd).length : ℚ) else 0) =
      (mp.flatMap Prod.snd).sum / ((mp.flatMap Prod.snd).length : ℚ) :=
    if_pos (by simp [hAne])
  rw [hov] at hpos
  simp only [hov]
  have hlen_pos : (0 : ℚ) < ((mp.flatMap Prod.snd).length : ℚ) := by
    have : 0 < (mp.flatMap Prod.snd).length := List.length_pos.mpr hAne
    exact_mod_cast this
  have hsum_pos : 0 < (mp.flatMap Prod.snd).sum := by
    have := mul_pos hpos hlen_pos
    rwa [div_mul_cancel₀ _ (ne_of_gt hlen_pos)] at this
  have hgne : ∀ g ∈ mp, g.2 ≠ [] :=
    buildMonthlyPatterns_groups_ne_nil history [] mp (by simp) hbm
  have hcond : (0 < (mp.flatMap Prod.snd).sum / ((mp.flatMap Prod.snd).length : ℚ)) = True :=
    eq_true hpos
  simp only [hcond, if_true, List.map_map, zip_self_map]
  have hterm : ∀ p ∈ mp,
      ((fun q : (ℕ × List ℚ) × ℕ × ℚ => (q.1.2.length : ℚ) * q.2.2) ∘
        fun a => (a, ((fun p : ℕ × ℚ =>
          (p.1, p.2 / ((mp.flatMap Prod.snd).sum / ((mp.flatMap Prod.snd).length : ℚ)))) ∘
            fun p : ℕ × List ℚ => (p.1, p.2.sum / (p.2.length : ℚ))) a)) p =
      p.2.sum * ((mp.flatMap Prod.snd).sum / ((mp.flatMap Prod.snd).length : ℚ))⁻¹ := by
    intro p hp
    have hpne : p.2 ≠ [] := hgne p hp
    have hl : ((p.2.length : ℚ)) ≠ 0 := by
      have : 0 < p.2.length := List.length_pos.mpr hpne
      exact_mod_cast ne_of_gt this
    simp only [Function.comp]
    rw [div_eq_mul_inv p.2.sum, div_eq_mul_inv _ ((mp.flatMap Prod.snd).sum / _)]
    field_simp
    ring
  rw [List.map_congr_left hterm, List.sum_map_mul_right, ← flatMap_snd_sum,
    inv_div, mul_div_cancel₀ _ (ne_of_gt hsum_pos), hAlen]

/-- Claim C10 witness: a two-record history observed in two months, with
counts 1 and 1 and indices 2/3 and 4/3 summing (count-weighted) to 2, the
number of records. -/
theorem seasonality_weighted_mean_of_indices_witness :
    buildMonthlyPatterns
        [⟨"2024-01-10", 2, 1, none⟩, ⟨"2024-02-10", 4, 1, none⟩] [] =
      .ok [(1, [2]), (2, [4])] ∧
    calculate_seasonality_metrics
        [⟨"2024-01-10", 2, 1, none⟩, ⟨"2024-02-10", 4, 1, none⟩] =
      .ok (.full ⟨[(1, 2/3), (2, 4/3)], [2], [1], 2/9⟩ ⟨3, [(1, 2), (2, 4)]⟩) ∧
    (0 : ℚ) < 3 ∧
    ((([(1, [2]), (2, [4])] : List (ℕ × List ℚ)).zip
        ([(1, 2/3), (2, 4/3)] : List (ℕ × ℚ))).map
      fun q => (q.1.2.length : ℚ) * q.2.2).sum =
      (([⟨"2024-01-10", 2, 1, none⟩, ⟨"2024-02-10", 4, 1, none⟩] :
        List SalesRecord).length : ℚ) := by
  have hp₁ : fromisoformat "2024-01-10" = some ⟨2024, 1, 10⟩ := by decide
  have hp₂ : fromisoformat "2024-02-10" = some ⟨2024, 2, 10⟩ := by decide
  have hbm : buildMonthlyPatterns
      [⟨"2024-01-10", 2, 1, none⟩, ⟨"2024-02-10", 4, 1, none⟩] [] =
      .ok [(1, [2]), (2, [4])] := by
    simp [buildMonthlyPatterns, hp₁, hp₂, appendToMonth]
  have hok : calculate_seasonality_metrics
      [⟨"2024-01-10", 2, 1, none⟩, ⟨"2024-02-10", 4, 1, none⟩] =
      .ok (.full ⟨[(1, 2/3), (2, 4/3)], [2], [1], 2/9⟩ ⟨3, [(1, 2), (2, 4)]⟩) := by
    rw [calculate_seasonality_metrics, if_neg (by simp), hbm]
    norm_num [calculate_seasonality_strength]
  exact ⟨hbm, hok, by norm_num,
    seasonality_weighted_mean_of_indices
      [⟨"2024-01-10", 2, 1, none⟩, ⟨"2024-02-10", 4, 1, none⟩]
      [(1, [2]), (2, [4])] ⟨[(1, 2/3), (2, 4/3)], [2], [1], 2/9⟩
      ⟨3, [(1, 2), (2, 4)]⟩ (by simp) hbm hok (by norm_num)⟩

/-- Claim C7: the demand scenario of the spec, computed exactly: the
three-record history over the range 2024-01-01..2024-02-28 produces the two
monthly buckets and summary stated in the spec (0.0667 = 667/10000 and
11.5 = 23/2 in exact arithmetic). -/
theorem demand_scenario_exact :
    get_product_demand
        (some ⟨some [⟨"2024-01-10", 10, 5, some 1⟩, ⟨"2024-01-20", 5, 5, some 0⟩,
          ⟨"2024-02-05", 8, 6, some 0⟩]⟩) "2024-01-01" "2024-02-28" =
      some
        { time_series :=
            [⟨"2024-01", 15, 75, 1, 5, 667/10000⟩,
             ⟨"2024-02", 8, 48, 0, 6, 0⟩],
          summary := ⟨2, 23, 123, 23/2⟩ } := by
  have h₁ : fromisoformat "2024-01-01" = some ⟨2024, 1, 1⟩ := by decide
  have h₂ : fromisoformat "2024-02-28" = some ⟨2024, 2, 28⟩ := by decide
  have hr₁ : fromisoformat "2024-01-10" = some ⟨2024, 1, 10⟩ := by decide
  have hr₂ : fromisoformat "2024-01-20" = some ⟨2024, 1, 20⟩ := by decide
  have hr₃ : fromisoformat "2024-02-05" = some ⟨2024, 2, 5⟩ := by decide
  have hfil : filterInRange ⟨2024, 1, 1⟩ ⟨2024, 2, 28⟩
      [⟨"2024-01-10", 10, 5, some 1⟩, ⟨"2024-01-20", 5, 5, some 0⟩,
        ⟨"2024-02-05", 8, 6, some 0⟩] =
      .ok [⟨"2024-01-10", 10, 5, some 1⟩, ⟨"2024-01-20", 5, 5, some 0⟩,
        ⟨"2024-02-05", 8, 6, some 0⟩] := rfl
  have hmk₁ : monthKey ⟨2024, 1, 10⟩ = "2024-01" := by decide
  have hmk₂ : monthKey ⟨2024, 1, 20⟩ = "2024-01" := by decide
  have hmk₃ : monthKey ⟨2024, 2, 5⟩ = "2024-02" := by decide
  have hne₁ : ("2024-01" : String) ≠ "2024-02" := by decide
  have hne₂ : ("2024-02" : String) ≠ "2024-01" := by decide
  have hgrp : groupMonthly
      [⟨"2024-01-10", 10, 5, some 1⟩, ⟨"2024-01-20", 5, 5, some 0⟩,
        ⟨"2024-02-05", 8, 6, some 0⟩] [] =
      .ok [("2024-01", ⟨15, 75, 1, 0, 2⟩), ("2024-02", ⟨8, 48, 0, 0, 1⟩)] := by
    simp only [groupMonthly, hr₁, hr₂, hr₃, hmk₁, hmk₂, hmk₃]
    norm_num [upsertBucket, addToBucket, emptyBucket, hne₁, hne₂]
  have hle : ¬("2024-02" ≤ "2024-01") := by
    rw [String.le_iff_toList_le]; decide
  have hsort : sortStrings ["2024-01", "2024-02"] = ["2024-01", "2024-02"] := by
    simp [sortStrings, insertStr, hle]
  have hR75 : pyRound 75 2 = 75 := pyRound_exact 75 2 7500 (by norm_num)
  have hR5 : pyRound 5 2 = 5 := pyRound_exact 5 2 500 (by norm_num)
  have hRrate : pyRound (1/15) 4 = 667/10000 := by
    rw [pyRound_high (1/15) 4 666 (by norm_num) (by norm_num) (by norm_num)]
    norm_num
  have hR48 : pyRound 48 2 = 48 := pyRound_exact 48 2 4800 (by norm_num)
  have hR6 : pyRound 6 2 = 6 := pyRound_exact 6 2 600 (by norm_num)
  have hR0 : pyRound 0 4 = 0 := pyRound_exact 0 4 0 (by norm_num)
  have hR123 : pyRound 123 2 = 123 := pyRound_exact 123 2 12300 (by norm_num)
  have hR115 : pyRound (23/2) 2 = 23/2 := pyRound_exact (23/2) 2 1150 (by norm_num)
  simp only [get_product_demand, h₁, h₂, hfil, hgrp]
  norm_num [hsort, lookupBucket, mkMonthlyEntry, hne₁, hne₂, hR75, hR5, hRrate,
    hR48, hR6, hR0, hR123, hR115]

end ECommerce
